import Mathlib

/-!
Verification of the config-manager repository's transaction engine, plan
builder, batch runner and manifest validation, via a shallow embedding of
the Go sources (operations.go, config.go, validation and template lookup)
into Lean.

The embedding has two layers:

* a trace model of `Transaction.Execute` over abstract operations, where an
  operation is reduced to the outcome of its `Execute` and `Rollback`
  calls (each called at most once), used for the claims about call order
  and error aggregation;

* a filesystem model (a flat map from absolute path strings to entries)
  over which the concrete `LinkOperation` / `CopyOperation` /
  `TemplateOperation` and the plan builder `createAtomicLinkOperation`
  are embedded, used for the claims about filesystem effects.
-/

deriving instance DecidableEq for Except

namespace ConfigManager

/-! ### Trace model of `Transaction.Execute` (operations.go lines 41-94)

An abstract operation records only the outcomes of its two calls: whether
`Execute()` returns nil and whether `Rollback()` returns nil.  This is the
whole behaviour of a Go `Operation` visible to `Transaction.Execute`. -/

structure TxOp where
  execOk : Bool
  rollbackOk : Bool
deriving DecidableEq

/-- Error information carried by the error value `Transaction.Execute`
returns on failure: the message `operation %d failed: ...` names the
failing index, and the message states separately whether the rollback
itself failed (`rollback also failed` vs `rolled back successfully`). -/
structure TxError where
  failIdx : Nat
  rollbackFailed : Bool
deriving DecidableEq

/-- Trace of one `Transaction.Execute` run: the operation indices whose
`Execute` was invoked (in call order), the indices whose `Rollback` was
invoked (in call order), and the returned error, if any. -/
structure TxTrace where
  execCalls : List Nat
  rollbackCalls : List Nat
  error : Option TxError
deriving DecidableEq

/-- Embeds `Transaction.rollback` (operations.go lines 69-89): the loop
`for i := len(t.executed) - 1; i >= 0; i--` calls `Rollback` on the
executed operations in reverse order, aggregating failures into a
`MultiError` instead of short-circuiting.  The argument is `t.executed`
in execution order, paired with each operation's index in `t.operations`;
the result is the list of rolled-back indices in call order plus
`multiErr.HasErrors()`. -/
def rollbackLoop : List (Nat × TxOp) → List Nat × Bool
  | [] => ([], false)
  | (i, op) :: rest =>
    let r := rollbackLoop rest
    (i :: r.1, (!op.rollbackOk || r.2))

def txRollback (executed : List (Nat × TxOp)) : List Nat × Bool :=
  rollbackLoop executed.reverse

/-- Embeds the loop of `Transaction.Execute` (operations.go lines 45-63):
`i` is the index of the head of `ops` in the original operation list and
`executed` is `t.executed` so far.  On an operation's failure the executed
prefix is rolled back and the error names the failing index together with
whether rollback itself failed; the failing operation is not appended to
`t.executed`. -/
def txExecuteLoop : List TxOp → Nat → List (Nat × TxOp) → TxTrace
  | [], _, _ => ⟨[], [], none⟩
  | op :: rest, i, executed =>
    if op.execOk then
      let t := txExecuteLoop rest (i + 1) (executed ++ [(i, op)])
      ⟨i :: t.execCalls, t.rollbackCalls, t.error⟩
    else
      let r := txRollback executed
      ⟨[i], r.1, some ⟨i, r.2⟩⟩

/-- Embeds `Transaction.Execute` (operations.go lines 41-66) for a
transaction whose operation list is `ops`. -/
def txExecute (ops : List TxOp) : TxTrace :=
  txExecuteLoop ops 0 []

theorem rollbackLoop_eq (l : List (Nat × TxOp)) :
    rollbackLoop l = (l.map Prod.fst, l.any fun p => !p.2.rollbackOk) := by
  induction l with
  | nil => rfl
  | cons p rest ih => simp [rollbackLoop, ih]

theorem txRollback_eq (executed : List (Nat × TxOp)) :
    txRollback executed =
      ((executed.map Prod.fst).reverse, executed.any fun p => !p.2.rollbackOk) := by
  simp [txRollback, rollbackLoop_eq, List.any_reverse, List.map_reverse]

theorem any_rollbackOk_enumFrom (l : List TxOp) (n : Nat) :
    ((l.enumFrom n).any fun p => !p.2.rollbackOk) = l.any fun op => !op.rollbackOk := by
  induction l generalizing n with
  | nil => rfl
  | cons x xs ih => simp [List.enumFrom, ih]

theorem txExecuteLoop_all_ok (ops : List TxOp) (i : Nat) (executed : List (Nat × TxOp))
    (h : ∀ op ∈ ops, op.execOk = true) :
    txExecuteLoop ops i executed = ⟨List.range' i ops.length, [], none⟩ := by
  induction ops generalizing i executed with
  | nil => rfl
  | cons op rest ih =>
    have hop : op.execOk = true := h op (by simp)
    simp [txExecuteLoop, hop, ih _ _ (fun o ho => h o (by simp [ho])), List.range'_succ]

theorem txExecuteLoop_first_fail (ops : List TxOp) (k i : Nat)
    (executed : List (Nat × TxOp)) (hk : k < ops.length)
    (hfail : (ops.get ⟨k, hk⟩).execOk = false)
    (hok : ∀ j (hj : j < k), (ops.get ⟨j, Nat.lt_trans hj hk⟩).execOk = true) :
    txExecuteLoop ops i executed =
      ⟨List.range' i (k + 1),
       ((executed ++ (ops.take k).enumFrom i).map Prod.fst).reverse,
       some ⟨i + k, (executed ++ (ops.take k).enumFrom i).any fun p => !p.2.rollbackOk⟩⟩ := by
  induction ops generalizing k i executed with
  | nil => exact absurd hk (by simp)
  | cons op rest ih =>
    cases k with
    | zero =>
      have : op.execOk = false := hfail
      simp [txExecuteLoop, this, txRollback_eq, List.range'_succ]
    | succ k' =>
      have hop : op.execOk = true := hok 0 (Nat.succ_pos k')
      have hk' : k' < rest.length := Nat.lt_of_succ_lt_succ hk
      have hfail' : (rest.get ⟨k', hk'⟩).execOk = false := hfail
      have hok' : ∀ j (hj : j < k'), (rest.get ⟨j, Nat.lt_trans hj hk'⟩).execOk = true :=
        fun j hj => hok (j + 1) (Nat.succ_lt_succ hj)
      rw [txExecuteLoop]
      simp only [hop, if_pos]
      rw [ih k' (i + 1) (executed ++ [(i, op)]) hk' hfail' hok']
      simp [List.range'_succ, List.enumFrom, Nat.add_assoc, Nat.add_comm 1 k']

/-- C1: for a transaction whose operation at (0-based) index `k` is the
first whose `Execute` fails, `Transaction.Execute` invokes `Execute` on
operations `0..k` only (stopping after the failure), invokes `Rollback`
exactly once on each of the operations `0..k-1` in strict descending
order `k-1, k-2, ..., 0`, and returns an error naming the failing index
`k` together with, separately, whether rollback itself encountered any
error, so that rollback failures do not mask the original failure. -/
theorem transaction_execute_first_fail (ops : List TxOp) (k : Nat) (hk : k < ops.length)
    (hfail : (ops.get ⟨k, hk⟩).execOk = false)
    (hok : ∀ j (hj : j < k), (ops.get ⟨j, Nat.lt_trans hj hk⟩).execOk = true) :
    (txExecute ops).execCalls = List.range (k + 1) ∧
    (txExecute ops).rollbackCalls = (List.range k).reverse ∧
    (txExecute ops).error = some ⟨k, (ops.take k).any fun op => !op.rollbackOk⟩ := by
  have h := txExecuteLoop_first_fail ops k 0 [] hk hfail hok
  have hlen : (ops.take k).length = k := List.length_take_of_le (Nat.le_of_lt hk)
  have hfst : ((ops.take k).enumFrom 0).map Prod.fst = List.range' 0 k := by
    rw [List.enumFrom_map_fst, hlen]
  have hsnd : ((ops.take k).enumFrom 0).map Prod.snd = ops.take k :=
    List.enumFrom_map_snd 0 (ops.take k)
  refine ⟨?_, ?_, ?_⟩
  · rw [txExecute, h]
    simp [List.range_eq_range']
  · rw [txExecute, h]
    simp only [List.nil_append, hfst]
    rw [List.range_eq_range']
  · rw [txExecute, h]
    simp only [List.nil_append, Nat.zero_add]
    rw [any_rollbackOk_enumFrom]

/-- Witness for C1 at the concrete transaction
`[ok/ok, ok/rollback-fails, exec-fails]` with `k = 2`. -/
theorem transaction_execute_first_fail_witness :
    ((([⟨true, true⟩, ⟨true, false⟩, ⟨false, true⟩] : List TxOp).get ⟨2, by decide⟩).execOk
      = false) ∧
    (txExecute [⟨true, true⟩, ⟨true, false⟩, ⟨false, true⟩]).execCalls = List.range 3 ∧
    (txExecute [⟨true, true⟩, ⟨true, false⟩, ⟨false, true⟩]).rollbackCalls =
      (List.range 2).reverse ∧
    (txExecute [⟨true, true⟩, ⟨true, false⟩, ⟨false, true⟩]).error = some ⟨2, true⟩ :=
  ⟨by decide,
   by
    have h := transaction_execute_first_fail [⟨true, true⟩, ⟨true, false⟩, ⟨false, true⟩] 2
      (by decide) (by decide) (by decide)
    exact ⟨h.1, h.2.1, by rw [h.2.2]; decide⟩⟩

/-! ### Batch runner (operations.go lines 408-458)

`atomicLinkAllConfigs` builds and executes one transaction per tracked
file.  At this layer a file is abstracted to its name, whether
`createAtomicLinkOperation` fails for it, and the outcome list of the
operations of the transaction built for it. -/

structure BatchFile where
  name : String
  createErr : Bool
  ops : List TxOp
deriving DecidableEq

/-- The error recorded for a failed file: either the
`Failed to create transaction` case or the error from `tx.Execute()`. -/
inductive BatchErr where
  | createFailed
  | txFailed (e : TxError)
deriving DecidableEq

/-- One `OperationResult` (errors.go lines 44-51) as filled in by
`atomicLinkAllConfigs`, together with the execution trace of the file's
transaction (`none` when the transaction could not even be built). -/
structure BatchResult where
  file : String
  err : Option BatchErr
  trace : Option TxTrace
deriving DecidableEq

def BatchResult.success (r : BatchResult) : Bool :=
  r.err.isNone

/-- One iteration of the loop of `atomicLinkAllConfigs`
(operations.go lines 412-443). -/
def runBatchFile (f : BatchFile) : BatchResult :=
  if f.createErr then ⟨f.name, some .createFailed, none⟩
  else
    let t := txExecute f.ops
    match t.error with
    | some e => ⟨f.name, some (.txFailed e), some t⟩
    | none => ⟨f.name, none, some t⟩

/-- Embeds `atomicLinkAllConfigs` (operations.go lines 408-458): run the
per-file loop over all files, then, if any failed, return a `MultiError`
that collects `"%s: %v"` for every unsuccessful result, in order. -/
def atomicLinkAllConfigs (files : List BatchFile) :
    List BatchResult × Option (List (String × BatchErr)) :=
  let results := files.map runBatchFile
  let failed := results.filter fun r => !r.success
  (results,
   if failed.isEmpty then none
   else some (failed.map fun r => (r.file, r.err.getD .createFailed)))

theorem txExecuteLoop_of_error_none (ops : List TxOp) (i : Nat) (ex : List (Nat × TxOp))
    (h : (txExecuteLoop ops i ex).error = none) :
    txExecuteLoop ops i ex = ⟨List.range' i ops.length, [], none⟩ := by
  induction ops generalizing i ex with
  | nil => rfl
  | cons op rest ih =>
    by_cases hop : op.execOk
    · rw [txExecuteLoop] at h ⊢
      simp only [hop, if_pos] at h ⊢
      rw [ih (i + 1) (ex ++ [(i, op)]) h]
      simp [List.range'_succ]
    · rw [txExecuteLoop] at h
      simp [hop] at h

/-- C3: `atomicLinkAllConfigs` builds and executes one transaction per
file independently: the result recorded for the i-th file is a function
of that file alone (so an earlier file's failure never prevents
attempting later files and never touches their transactions); the return
value is `none` exactly when every file succeeded, and otherwise is an
aggregate error enumerating exactly the failing files, each with its own
error, in order; and a file whose transaction succeeded has a trace in
which every operation executed and no rollback was invoked (it remains
linked). -/
theorem atomic_link_all_batch_independence (files : List BatchFile) :
    ((atomicLinkAllConfigs files).1.length = files.length) ∧
    (∀ (i : Nat) (f : BatchFile), files[i]? = some f →
      (atomicLinkAllConfigs files).1[i]? = some (runBatchFile f)) ∧
    ((atomicLinkAllConfigs files).2 = none ↔
      ∀ r ∈ (atomicLinkAllConfigs files).1, r.err = none) ∧
    (∀ L, (atomicLinkAllConfigs files).2 = some L →
      L = ((atomicLinkAllConfigs files).1.filter fun r => !r.success).map
        fun r => (r.file, r.err.getD .createFailed)) ∧
    (∀ (i : Nat) (f : BatchFile), files[i]? = some f → f.createErr = false →
      (txExecute f.ops).error = none →
      (atomicLinkAllConfigs files).1[i]? =
        some ⟨f.name, none, some ⟨List.range f.ops.length, [], none⟩⟩) := by
  refine ⟨by simp [atomicLinkAllConfigs], ?_, ?_, ?_, ?_⟩
  · intro i f hf
    simp [atomicLinkAllConfigs, List.getElem?_map, hf]
  · simp only [atomicLinkAllConfigs]
    constructor
    · intro h r hr
      by_cases hemp : ((files.map runBatchFile).filter fun r => !r.success).isEmpty
      · rw [List.isEmpty_iff, List.filter_eq_nil] at hemp
        have := hemp r hr
        simp [BatchResult.success, Option.isNone_iff_eq_none] at this
        exact this
      · simp [hemp] at h
    · intro h
      have hemp : ((files.map runBatchFile).filter fun r => !r.success) = [] := by
        rw [List.filter_eq_nil]
        intro r hr
        simp [BatchResult.success, Option.isNone_iff_eq_none, h r hr]
      simp [hemp]
  · intro L hL
    simp only [atomicLinkAllConfigs] at hL ⊢
    by_cases hemp : ((files.map runBatchFile).filter fun r => !r.success).isEmpty
    · rw [if_pos hemp] at hL
      exact absurd hL (by simp)
    · rw [if_neg hemp] at hL
      exact (Option.some_inj.mp hL).symm
  · intro i f hf hc htx
    have hrun : runBatchFile f = ⟨f.name, none, some (txExecute f.ops)⟩ := by
      rw [runBatchFile, if_neg (by simp [hc])]
      simp [htx]
    have htrace : txExecute f.ops = ⟨List.range f.ops.length, [], none⟩ := by
      rw [txExecute, txExecuteLoop_of_error_none _ _ _ htx, List.range_eq_range']
    simp only [atomicLinkAllConfigs, List.getElem?_map, hf]
    rw [show Option.map runBatchFile (some f) = some (runBatchFile f) from rfl, hrun, htrace]

/-- Witness for C3 at a concrete batch in which the middle file's
transaction fails and the other two succeed. -/
theorem atomic_link_all_batch_independence_witness :
    (([⟨"a", false, [⟨true, true⟩]⟩, ⟨"b", false, [⟨false, true⟩]⟩,
        ⟨"c", false, []⟩] : List BatchFile)[0]? = some ⟨"a", false, [⟨true, true⟩]⟩) ∧
    (atomicLinkAllConfigs [⟨"a", false, [⟨true, true⟩]⟩, ⟨"b", false, [⟨false, true⟩]⟩,
        ⟨"c", false, []⟩]).1[0]? =
      some ⟨"a", none, some ⟨List.range 1, [], none⟩⟩ := by
  constructor
  · decide
  · exact (atomic_link_all_batch_independence
      [⟨"a", false, [⟨true, true⟩]⟩, ⟨"b", false, [⟨false, true⟩]⟩,
       ⟨"c", false, []⟩]).2.2.2.2 0 ⟨"a", false, [⟨true, true⟩]⟩ (by decide) (by decide)
      (by decide)

/-! ### Filesystem model

A filesystem is a flat map from absolute path strings to entries; renames
and recursive copies act on the flat map pointwise.  Only the syscalls the
embedded code uses are modelled, each with the failure modes its caller
distinguishes. -/

/-- A filesystem entry: regular file with its byte content, symbolic link
with its literal link text, or directory. -/
inductive Entry where
  | file (content : String)
  | symlink (linkText : String)
  | dir
deriving DecidableEq

def FS : Type := String → Option Entry

def fsSet (fs : FS) (p : String) (e : Option Entry) : FS :=
  fun q => if q = p then e else fs q

/-- Splitting a string at every slash (the effect of `strings.Split` /
the component scan inside `filepath.Clean`), written by structural
recursion on the character list. -/
def splitSlashAux : List Char → List Char → List String
  | [], acc => [String.mk acc.reverse]
  | c :: rest, acc =>
    if c = '/' then String.mk acc.reverse :: splitSlashAux rest []
    else splitSlashAux rest (c :: acc)

def splitSlash (s : String) : List String :=
  splitSlashAux s.data []

/-- Boolean string prefix test (`strings.HasPrefix`), by structural
recursion on the character lists. -/
def strStartsWith (s pre : String) : Bool :=
  pre.data.isPrefixOf s.data

def strDrop (s : String) (n : Nat) : String :=
  String.mk (s.data.drop n)

/-- Components of a rooted slash-separated path after the lexical
cleaning `filepath.Clean` performs: empty segments and `.` are dropped,
`..` removes the preceding component. -/
def cleanComponents (p : String) : List String :=
  (splitSlash p).foldl
    (fun acc c =>
      if c = "" ∨ c = "." then acc
      else if c = ".." then acc.dropLast
      else acc ++ [c]) []

def interSlash : List String → String
  | [] => ""
  | [c] => c
  | c :: rest => c ++ "/" ++ interSlash rest

def joinComponents (cs : List String) : String :=
  "/" ++ interSlash cs

/-- Embeds `filepath.Clean` for rooted paths. -/
def cleanAbs (p : String) : String :=
  joinComponents (cleanComponents p)

/-- Embeds `filepath.Join(a, b)` for a rooted first argument: concatenate
with a separator, then clean. -/
def filepathJoin (a b : String) : String :=
  cleanAbs (a ++ "/" ++ b)

/-- Embeds `filepath.Dir` for rooted paths. -/
def dirPath (p : String) : String :=
  joinComponents (cleanComponents p).dropLast

/-- Embeds `filepath.Base` for rooted paths. -/
def basePath (p : String) : String :=
  match (cleanComponents p).getLast? with
  | some c => c
  | none => "/"

/-- The chain of paths `os.MkdirAll` visits for `p`, outermost first. -/
def ancestorPaths (p : String) : List String :=
  (List.range (cleanComponents p).length).map
    fun i => joinComponents ((cleanComponents p).take (i + 1))

/-- One step of `os.MkdirAll`: create the path as a directory if absent,
fail if an existing entry there is not a directory. -/
def mkdirStep (f : FS) (q : String) : Except Unit FS :=
  match f q with
  | none => Except.ok (fsSet f q (some Entry.dir))
  | some Entry.dir => Except.ok f
  | some _ => Except.error ()

/-- Embeds `os.MkdirAll`: create every missing path on the chain as a
directory, failing if an existing entry on the way is not a directory. -/
def mkdirAll (fs : FS) (p : String) : Except Unit FS :=
  (ancestorPaths p).foldlM mkdirStep fs

/-- Follow symbolic links the way the kernel resolves them for `os.Stat`,
with the standard loop limit of 40 links; a missing entry or an exhausted
limit makes the stat fail (`none`). -/
def resolveEntry (fs : FS) : Nat → String → Option Entry
  | 0, _ => none
  | fuel + 1, p =>
    match fs p with
    | some (Entry.symlink t) => resolveEntry fs fuel t
    | e => e

/-- Embeds `os.Stat` (symlink-following); `os.Lstat` is plain `fs p`. -/
def statEntry (fs : FS) (p : String) : Option Entry :=
  resolveEntry fs 40 p

/-- Embeds `os.Rename`: fails if the old path has no entry or the new
path is an existing directory; otherwise moves the entry, replacing any
existing entry at the new path, as rename(2) does. -/
def fsRename (fs : FS) (src dst : String) : Except Unit FS :=
  match fs src with
  | none => Except.error ()
  | some e =>
    match fs dst with
    | some Entry.dir => Except.error ()
    | _ => Except.ok (fsSet (fsSet fs src none) dst (some e))

/-- Embeds `os.Symlink(source, target)`: fails when the environment
injects a failure (modelling e.g. a permission error) or when the target
path already has an entry (EEXIST); otherwise creates a symlink entry. -/
def fsSymlink (injectFail : Bool) (fs : FS) (source target : String) : Except Unit FS :=
  if injectFail then Except.error ()
  else
    match fs target with
    | some _ => Except.error ()
    | none => Except.ok (fsSet fs target (some (Entry.symlink source)))

/-- Embeds `os.Remove` at the rollback call sites: in the flat model its
only failure mode is a missing entry, which is exactly the
`os.IsNotExist` case every caller in operations.go ignores, so the call
sites treat it as error-free. -/
def fsRemove (fs : FS) (p : String) : FS :=
  fsSet fs p none

/-- Embeds `os.RemoveAll`: removes the entry and everything beneath it;
missing paths are not an error. -/
def fsRemoveAll (fs : FS) (p : String) : FS :=
  fun q => if q = p ∨ strStartsWith q (p ++ "/") then none else fs q

/-- Embeds `os.WriteFile`: fails if the path is an existing directory,
otherwise creates or truncates the file. -/
def fsWriteFile (fs : FS) (p content : String) : Except Unit FS :=
  match fs p with
  | some Entry.dir => Except.error ()
  | _ => Except.ok (fsSet fs p (some (Entry.file content)))

/-- Embeds `copyFile` (src/unnamed/part_002 lines 457-472): read the
source through symlinks, write the destination. -/
def copyFile (fs : FS) (src dst : String) : Except Unit FS :=
  match statEntry fs src with
  | some (Entry.file c) => fsWriteFile fs dst c
  | _ => Except.error ()

/-- Embeds `copyDirectory` (src/unnamed/part_002 lines 417-455) on the
flat model: the source must stat as a directory, and every entry under it
is mirrored under the destination. -/
def copyDirectory (fs : FS) (src dst : String) : Except Unit FS :=
  match statEntry fs src with
  | some Entry.dir =>
    Except.ok fun q =>
      if q = dst then some Entry.dir
      else if strStartsWith q (dst ++ "/") then fs (src ++ "/" ++ strDrop q (dst.length + 1))
      else fs q
  | _ => Except.error ()

/-- External inputs of one run: the `time.Now()` timestamp used in backup
names, the template renderer (an external collaborator mapping a template
path to rendered text), and injected failures of the symlink syscall and
of the template validation/render pipeline. -/
structure Env where
  ts : String
  render : String → String
  symlinkFails : Bool
  renderFails : Bool

/-! ### Manifest data model (src/unnamed/part_001) -/

structure ConfigFile where
  Name : String
  Source : String
  Target : String
  Category : String
  Template : Bool
  Variables : List (String × String)
  IsLinked : Bool
  HasConflict : Bool
deriving DecidableEq

structure Config where
  Files : List ConfigFile
  ConfigDir : String
  DotfilesDir : String
  Variables : List (String × String)
  Categories : List String
  TemplateExts : List String
  Editor : String
  Shell : String
deriving DecidableEq

/-! ### Template lookup (src/unnamed/part_000 lines 292-315) -/

/-- Embeds `strings.TrimPrefix(fileName, ".")`. -/
def trimLeadingDot (s : String) : String :=
  if strStartsWith s "." then strDrop s 1 else s

/-- The inner candidate loop of `findTemplateFile`: return the first
candidate that stats successfully, else the empty string. -/
def findInCandidates (fs : FS) : List String → String
  | [] => ""
  | c :: rest => if (statEntry fs c).isSome then c else findInCandidates fs rest

/-- The four candidate paths `findTemplateFile` tries for one extension,
in order. -/
def templateCandidates (templatesDir baseName fileName category ext : String) : List String :=
  [filepathJoin templatesDir (baseName ++ ext),
   filepathJoin templatesDir (fileName ++ ext),
   filepathJoin templatesDir (category ++ "_" ++ baseName ++ ext),
   filepathJoin (filepathJoin templatesDir category) (baseName ++ ext)]

def findTemplateLoop (fs : FS) (templatesDir baseName fileName category : String) :
    List String → String
  | [] => ""
  | ext :: rest =>
    let r := findInCandidates fs (templateCandidates templatesDir baseName fileName category ext)
    if r ≠ "" then r
    else findTemplateLoop fs templatesDir baseName fileName category rest

/-- Embeds `findTemplateFile` (src/unnamed/part_000 lines 293-315): for
each configured template extension, in order, try the candidate paths
`basename+ext`, `fullname+ext`, `category_basename+ext` and
`category/basename+ext` under the templates directory; the first
candidate that stats successfully wins, otherwise the empty string. -/
def findTemplateFile (fs : FS) (config : Config) (fileName source category : String) : String :=
  let templatesDir := filepathJoin config.ConfigDir "templates"
  let baseName := trimLeadingDot fileName
  findTemplateLoop fs templatesDir baseName fileName category config.TemplateExts

/-- Embeds `createBasicConfigFile` (src/unnamed/part_000 lines 399-411). -/
def createBasicConfigFile (file : ConfigFile) (outputPath : String) (fs : FS) :
    Except Unit FS :=
  let basicContent := "# " ++ file.Name ++
    " configuration\n# Generated by config-manager\n# No template found, please customize as needed\n"
  match mkdirAll fs (dirPath outputPath) with
  | Except.error _ => Except.error ()
  | Except.ok fs1 => fsWriteFile fs1 outputPath basicContent

/-- Embeds `createFromTemplate` (src/unnamed/part_000 lines 254-290),
with the template validation and rendering pipeline (an out-of-scope
external collaborator) reduced to an injected failure flag and an opaque
renderer. -/
def createFromTemplate (env : Env) (config : Config) (file : ConfigFile)
    (outputPath : String) (fs : FS) : Except Unit FS :=
  if !file.Template then Except.error ()
  else
    let templatePath := findTemplateFile fs config file.Name file.Source file.Category
    if templatePath = "" then createBasicConfigFile file outputPath fs
    else if env.renderFails then Except.error ()
    else fsWriteFile fs outputPath (env.render templatePath)

/-! ### Concrete operations (operations.go lines 103-364)

Each Go method mutates its receiver and returns an error; the embedding
returns the updated operation, the updated filesystem and an error flag.
On an early error return the receiver fields set so far persist, exactly
as for the Go pointer receiver. -/

structure LinkOperation where
  sourcePath : String
  targetPath : String
  backupPath : String
  created : Bool
  backed : Bool
deriving DecidableEq

/-- Embeds `NewLinkOperation` (operations.go lines 114-120); the
`file` field is used only for diagnostics and is dropped. -/
def NewLinkOperation (sourcePath targetPath : String) : LinkOperation :=
  ⟨sourcePath, targetPath, "", false, false⟩

/-- Embeds `LinkOperation.Execute` (operations.go lines 122-145): back up
an existing target by renaming it aside, ensure the target's directory
exists, then create the symlink. -/
def LinkOperation.Execute (env : Env) (op : LinkOperation) (fs : FS) :
    LinkOperation × FS × Bool :=
  let afterBackup : Option (LinkOperation × FS) :=
    match fs op.targetPath with
    | some _ =>
      let bp := op.targetPath ++ ".backup." ++ env.ts
      match fsRename fs op.targetPath bp with
      | Except.error _ => none
      | Except.ok fs1 => some ({ op with backupPath := bp, backed := true }, fs1)
    | none => some (op, fs)
  match afterBackup with
  | none => (op, fs, true)
  | some (op1, fs1) =>
    match mkdirAll fs1 (dirPath op1.targetPath) with
    | Except.error _ => (op1, fs1, true)
    | Except.ok fs2 =>
      match fsSymlink env.symlinkFails fs2 op1.sourcePath op1.targetPath with
      | Except.error _ => (op1, fs2, true)
      | Except.ok fs3 => ({ op1 with created := true }, fs3, false)

/-- Embeds `LinkOperation.Rollback` (operations.go lines 147-170): remove
the symlink if it was created, restore the backup if one was made; both
steps are attempted and failures aggregated. -/
def LinkOperation.Rollback (op : LinkOperation) (fs : FS) : FS × Bool :=
  let fs1 := if op.created then fsRemove fs op.targetPath else fs
  if op.backed ∧ op.backupPath ≠ "" then
    match fsRename fs1 op.backupPath op.targetPath with
    | Except.error _ => (fs1, true)
    | Except.ok fs2 => (fs2, false)
  else (fs1, false)

structure CopyOperation where
  sourcePath : String
  targetPath : String
  backupPath : String
  copied : Bool
  backed : Bool
  isDir : Bool
deriving DecidableEq

/-- Embeds `NewCopyOperation` (operations.go lines 195-207): stats the
source at construction time to record whether it is a directory. -/
def NewCopyOperation (fs : FS) (sourcePath targetPath : String) : CopyOperation :=
  let isDir :=
    match statEntry fs sourcePath with
    | some Entry.dir => true
    | _ => false
  ⟨sourcePath, targetPath, "", false, false, isDir⟩

/-- Embeds `CopyOperation.Execute` (operations.go lines 209-251): back up
an existing target, ensure the target directory, then either write the
generated placeholder file (empty source sentinel) or copy the file or
directory tree. -/
def CopyOperation.Execute (env : Env) (op : CopyOperation) (fs : FS) :
    CopyOperation × FS × Bool :=
  let afterBackup : Option (CopyOperation × FS) :=
    match fs op.targetPath with
    | some _ =>
      let bp := op.targetPath ++ ".backup." ++ env.ts
      match fsRename fs op.targetPath bp with
      | Except.error _ => none
      | Except.ok fs1 => some ({ op with backupPath := bp, backed := true }, fs1)
    | none => some (op, fs)
  match afterBackup with
  | none => (op, fs, true)
  | some (op1, fs1) =>
    match mkdirAll fs1 (dirPath op1.targetPath) with
    | Except.error _ => (op1, fs1, true)
    | Except.ok fs2 =>
      if op1.sourcePath = "" then
        let basicContent := "# " ++ basePath op1.targetPath ++
          " configuration\n# Generated by config-manager\n# Please customize as needed\n"
        match fsWriteFile fs2 op1.targetPath basicContent with
        | Except.error _ => (op1, fs2, true)
        | Except.ok fs3 => ({ op1 with copied := true }, fs3, false)
      else
        match
          if op1.isDir then copyDirectory fs2 op1.sourcePath op1.targetPath
          else copyFile fs2 op1.sourcePath op1.targetPath with
        | Except.error _ => (op1, fs2, true)
        | Except.ok fs3 => ({ op1 with copied := true }, fs3, false)

/-- Embeds `CopyOperation.Rollback` (operations.go lines 253-276). -/
def CopyOperation.Rollback (op : CopyOperation) (fs : FS) : FS × Bool :=
  let fs1 := if op.copied then fsRemoveAll fs op.targetPath else fs
  if op.backed ∧ op.backupPath ≠ "" then
    match fsRename fs1 op.backupPath op.targetPath with
    | Except.error _ => (fs1, true)
    | Except.ok fs2 => (fs2, false)
  else (fs1, false)

structure TemplateOperation where
  config : Config
  file : ConfigFile
  templatePath : String
  outputPath : String
  created : Bool
  backupPath : String
  backed : Bool
deriving DecidableEq

/-- Embeds `NewTemplateOperation` (operations.go lines 304-311). -/
def NewTemplateOperation (config : Config) (file : ConfigFile)
    (templatePath outputPath : String) : TemplateOperation :=
  ⟨config, file, templatePath, outputPath, false, "", false⟩

/-- Embeds `TemplateOperation.Execute` (operations.go lines 313-331):
back up an existing output, then run `createFromTemplate`. -/
def TemplateOperation.Execute (env : Env) (op : TemplateOperation) (fs : FS) :
    TemplateOperation × FS × Bool :=
  let afterBackup : Option (TemplateOperation × FS) :=
    match fs op.outputPath with
    | some _ =>
      let bp := op.outputPath ++ ".backup." ++ env.ts
      match fsRename fs op.outputPath bp with
      | Except.error _ => none
      | Except.ok fs1 => some ({ op with backupPath := bp, backed := true }, fs1)
    | none => some (op, fs)
  match afterBackup with
  | none => (op, fs, true)
  | some (op1, fs1) =>
    match createFromTemplate env op1.config op1.file op1.outputPath fs1 with
    | Except.error _ => (op1, fs1, true)
    | Except.ok fs2 => ({ op1 with created := true }, fs2, false)

/-- Embeds `TemplateOperation.Rollback` (operations.go lines 333-356). -/
def TemplateOperation.Rollback (op : TemplateOperation) (fs : FS) : FS × Bool :=
  let fs1 := if op.created then fsRemove fs op.outputPath else fs
  if op.backed ∧ op.backupPath ≠ "" then
    match fsRename fs1 op.backupPath op.outputPath with
    | Except.error _ => (fs1, true)
    | Except.ok fs2 => (fs2, false)
  else (fs1, false)

/-- The `Operation` interface (operations.go lines 11-16), closed over
the three implementations in the repository. -/
inductive Op where
  | link (op : LinkOperation)
  | copy (op : CopyOperation)
  | tmpl (op : TemplateOperation)
deriving DecidableEq

def Op.Execute (env : Env) (o : Op) (fs : FS) : Op × FS × Bool :=
  match o with
  | Op.link op =>
    match op.Execute env fs with
    | (op1, fs1, err) => (Op.link op1, fs1, err)
  | Op.copy op =>
    match op.Execute env fs with
    | (op1, fs1, err) => (Op.copy op1, fs1, err)
  | Op.tmpl op =>
    match op.Execute env fs with
    | (op1, fs1, err) => (Op.tmpl op1, fs1, err)

def Op.Rollback (o : Op) (fs : FS) : FS × Bool :=
  match o with
  | Op.link op => op.Rollback fs
  | Op.copy op => op.Rollback fs
  | Op.tmpl op => op.Rollback fs

/-! ### Transaction over the filesystem model (operations.go 41-94) -/

def rollbackFSLoop : List Op → FS → FS × Bool
  | [], fs => (fs, false)
  | o :: rest, fs =>
    let r := o.Rollback fs
    let r' := rollbackFSLoop rest r.1
    (r'.1, r.2 || r'.2)

/-- Embeds `Transaction.rollback` over the executed operations (in their
post-execution states), reverse order, aggregating errors. -/
def txRollbackFS (executed : List Op) (fs : FS) : FS × Bool :=
  rollbackFSLoop executed.reverse fs

/-- Result of `Transaction.Execute` on the filesystem model: the final
filesystem and, on failure, the 0-based failing operation index together
with whether rollback itself reported errors. -/
structure TxFSResult where
  fs : FS
  error : Option TxError

/-- The loop of `Transaction.Execute`: on an operation's failure, roll
back the previously executed operations (the failing operation is not in
`t.executed` and is not rolled back). -/
def txExecuteFSLoop (env : Env) : List Op → Nat → List Op → FS → TxFSResult
  | [], _, _, fs => ⟨fs, none⟩
  | o :: rest, i, executed, fs =>
    match o.Execute env fs with
    | (o1, fs1, err) =>
      if err then
        let r := txRollbackFS executed fs1
        ⟨r.1, some ⟨i, r.2⟩⟩
      else txExecuteFSLoop env rest (i + 1) (executed ++ [o1]) fs1

def txExecuteFS (env : Env) (ops : List Op) (fs : FS) : TxFSResult :=
  txExecuteFSLoop env ops 0 [] fs

/-! ### Plan builder (operations.go lines 367-405, 461-468) -/

/-- Embeds `createAtomicLinkOperation` (operations.go lines 367-405). -/
def createAtomicLinkOperation (config : Config) (file : ConfigFile) (fs : FS) :
    Except Unit (List Op × FS) :=
  let sourcePath := filepathJoin config.DotfilesDir file.Source
  let sourceDir := dirPath sourcePath
  match mkdirAll fs sourceDir with
  | Except.error _ => Except.error ()
  | Except.ok fs1 =>
    let preOps : List Op :=
      if (statEntry fs1 sourcePath).isNone then
        if file.Template then
          let templatePath := findTemplateFile fs1 config file.Name file.Source file.Category
          if templatePath ≠ "" then
            [Op.tmpl (NewTemplateOperation config file templatePath sourcePath)]
          else
            [Op.copy (NewCopyOperation fs1 "" sourcePath)]
        else
          if (statEntry fs1 file.Target).isSome then
            [Op.copy (NewCopyOperation fs1 file.Target sourcePath)]
          else []
      else []
    Except.ok (preOps ++ [Op.link (NewLinkOperation sourcePath file.Target)], fs1)

/-- Embeds `atomicLinkSingleConfig` (operations.go lines 461-468). -/
def atomicLinkSingleConfig (env : Env) (config : Config) (file : ConfigFile)
    (fs : FS) : Except Unit TxFSResult :=
  match createAtomicLinkOperation config file fs with
  | Except.error _ => Except.error ()
  | Except.ok (ops, fs1) => Except.ok (txExecuteFS env ops fs1)

/-- C7: rolling back a Link, Copy, or Template operation that was
constructed (by its `New...` constructor) but never executed returns
success and performs no filesystem change, whatever the filesystem. -/
theorem rollback_never_executed_noop (fs fs' : FS) (s t : String) (cfg : Config)
    (file : ConfigFile) (tp out : String) :
    (NewLinkOperation s t).Rollback fs = (fs, false) ∧
    (NewCopyOperation fs' s t).Rollback fs = (fs, false) ∧
    (NewTemplateOperation cfg file tp out).Rollback fs = (fs, false) := by
  refine ⟨?_, ?_, ?_⟩
  · simp [NewLinkOperation, LinkOperation.Rollback]
  · simp [NewCopyOperation, CopyOperation.Rollback]
  · simp [NewTemplateOperation, TemplateOperation.Rollback]

/-! ### C2 scenario: a LinkOperation that backed up the target and then
failed to create the symlink, inside a single-operation transaction. -/

def c2Env : Env :=
  ⟨"20240101-000000", fun _ => "", true, false⟩

def c2FS : FS := fun q =>
  if q = "/home/u/.vimrc" then some (Entry.file "X")
  else if q = "/home/u" then some Entry.dir
  else if q = "/home" then some Entry.dir
  else none

def c2Result : TxFSResult :=
  txExecuteFS c2Env [Op.link (NewLinkOperation "/d/vimrc" "/home/u/.vimrc")] c2FS

/-- C2: refuted on the code.  The target `/home/u/.vimrc` exists as a
file with content "X" before execution; the LinkOperation renames it
aside to its backup path and then the symlink syscall fails, so
`Transaction.Execute` fails at operation 0 — but `t.executed` does not
contain the failing operation, so its rollback (which would restore the
backup) is never invoked.  After the failed-and-"rolled-back" execution
the entry at the target path is gone (moved to the backup path), not
byte-identical to its pre-execution state, and the returned error even
reports that rollback succeeded. -/
theorem backup_not_restored_on_failing_op :
    c2FS "/home/u/.vimrc" = some (Entry.file "X") ∧
    c2Result.error = some ⟨0, false⟩ ∧
    c2Result.fs "/home/u/.vimrc" = none ∧
    c2Result.fs "/home/u/.vimrc.backup.20240101-000000" = some (Entry.file "X") := by
  refine ⟨rfl, ?_, ?_, ?_⟩ <;> decide

/-! ### Frame lemmas for the filesystem primitives -/

@[simp] theorem fsSet_same (fs : FS) (p : String) (e : Option Entry) :
    fsSet fs p e p = e := by
  simp [fsSet]

theorem fsSet_other (fs : FS) (p : String) (e : Option Entry) (q : String)
    (h : q ≠ p) : fsSet fs p e q = fs q := by
  simp [fsSet, h]

theorem mkdirFold_ok (l : List String) (fs : FS)
    (h : ∀ q ∈ l, fs q = none ∨ fs q = some Entry.dir) :
    ∃ fs', l.foldlM mkdirStep fs = Except.ok fs' ∧
      (∀ q, q ∉ l → fs' q = fs q) ∧
      (∀ q, fs' q = fs q ∨ fs' q = some Entry.dir) := by
  induction l generalizing fs with
  | nil => exact ⟨fs, rfl, fun q _ => rfl, fun q => Or.inl rfl⟩
  | cons c rest ih =>
    rcases h c (by simp) with hc | hc
    · have hstep : mkdirStep fs c = Except.ok (fsSet fs c (some Entry.dir)) := by
        simp [mkdirStep, hc]
      have h1 : ∀ q ∈ rest, fsSet fs c (some Entry.dir) q = none ∨
          fsSet fs c (some Entry.dir) q = some Entry.dir := by
        intro q hq
        by_cases hqc : q = c
        · right
          simp [hqc]
        · rw [fsSet_other _ _ _ _ hqc]
          exact h q (by simp [hq])
      obtain ⟨fs', hfold, hframe, hdir⟩ := ih (fsSet fs c (some Entry.dir)) h1
      refine ⟨fs', ?_, ?_, ?_⟩
      · rw [List.foldlM_cons, hstep]
        simpa using hfold
      · intro q hq
        have hqc : q ≠ c := fun hqc => hq (by simp [hqc])
        have hqr : q ∉ rest := fun hqr => hq (by simp [hqr])
        rw [hframe q hqr, fsSet_other _ _ _ _ hqc]
      · intro q
        rcases hdir q with h' | h'
        · by_cases hqc : q = c
          · right
            rw [h', hqc]
            simp
          · left
            rw [h', fsSet_other _ _ _ _ hqc]
        · right
          exact h'
    · have hstep : mkdirStep fs c = Except.ok fs := by
        simp [mkdirStep, hc]
      obtain ⟨fs', hfold, hframe, hdir⟩ := ih fs (fun q hq => h q (by simp [hq]))
      refine ⟨fs', ?_, fun q hq => hframe q (fun hm => hq (by simp [hm])), hdir⟩
      rw [List.foldlM_cons, hstep]
      simpa using hfold

/-- `os.MkdirAll` succeeds when everything on the chain is absent or a
directory, touches only paths on the chain, and only by creating
directories. -/
theorem mkdirAll_ok (fs : FS) (p : String)
    (h : ∀ q ∈ ancestorPaths p, fs q = none ∨ fs q = some Entry.dir) :
    ∃ fs', mkdirAll fs p = Except.ok fs' ∧
      (∀ q, q ∉ ancestorPaths p → fs' q = fs q) ∧
      (∀ q, fs' q = fs q ∨ fs' q = some Entry.dir) :=
  mkdirFold_ok (ancestorPaths p) fs h

theorem resolveEntry_of_none {fs : FS} {p : String} (h : fs p = none) :
    ∀ fuel, resolveEntry fs fuel p = none
  | 0 => rfl
  | fuel + 1 => by
    rw [resolveEntry, h]

/-- A path whose entry is missing stats as missing. -/
theorem statEntry_of_none {fs : FS} {p : String} (h : fs p = none) :
    statEntry fs p = none :=
  resolveEntry_of_none h 40

/-- A path whose entry is not a symlink stats as itself. -/
theorem statEntry_of_nonsymlink {fs : FS} {p : String} {e : Option Entry}
    (h : fs p = e) (hne : ∀ t, e ≠ some (Entry.symlink t)) :
    statEntry fs p = e := by
  show resolveEntry fs (39 + 1) p = e
  rw [resolveEntry, h]
  match e, hne with
  | none, _ => rfl
  | some (Entry.file c), _ => rfl
  | some Entry.dir, _ => rfl
  | some (Entry.symlink t), hne => exact absurd rfl (hne t)

/-- A `LinkOperation` on a fresh target (no existing entry) skips the
backup, creates the target's directory chain, and plants the symlink. -/
theorem linkExecute_fresh (env : Env) (op : LinkOperation) (fs : FS)
    (hsym : env.symlinkFails = false)
    (htgt : fs op.targetPath = none)
    (hmk : ∀ q ∈ ancestorPaths (dirPath op.targetPath),
      fs q = none ∨ fs q = some Entry.dir)
    (htanc : op.targetPath ∉ ancestorPaths (dirPath op.targetPath)) :
    ∃ fs2, op.Execute env fs =
        ({ op with created := true },
         fsSet fs2 op.targetPath (some (Entry.symlink op.sourcePath)), false) ∧
      (∀ q, q ∉ ancestorPaths (dirPath op.targetPath) → fs2 q = fs q) ∧
      (∀ q, fs2 q = fs q ∨ fs2 q = some Entry.dir) := by
  obtain ⟨fs2, hmkeq, hframe, hdir⟩ := mkdirAll_ok fs (dirPath op.targetPath) hmk
  refine ⟨fs2, ?_, hframe, hdir⟩
  have hfs2tgt : fs2 op.targetPath = none := by
    rw [hframe _ htanc, htgt]
  rw [LinkOperation.Execute, htgt]
  simp only [hmkeq]
  rw [fsSymlink, if_neg (by simp [hsym]), hfs2tgt]

/-- A `LinkOperation` on an occupied target renames the old entry to the
timestamped backup path, creates the directory chain, and plants the
symlink. -/
theorem linkExecute_occupied (env : Env) (op : LinkOperation) (fs : FS)
    (e0 : Entry)
    (hsym : env.symlinkFails = false)
    (htgt : fs op.targetPath = some e0)
    (hbp : fs (op.targetPath ++ ".backup." ++ env.ts) = none)
    (hmk : ∀ q ∈ ancestorPaths (dirPath op.targetPath), q ≠ op.targetPath →
      q ≠ op.targetPath ++ ".backup." ++ env.ts →
      (fs q = none ∨ fs q = some Entry.dir))
    (htanc : op.targetPath ∉ ancestorPaths (dirPath op.targetPath))
    (hbanc : op.targetPath ++ ".backup." ++ env.ts ∉ ancestorPaths (dirPath op.targetPath))
    (hbne : op.targetPath ++ ".backup." ++ env.ts ≠ op.targetPath) :
    ∃ fs2, op.Execute env fs =
        ({ op with backupPath := op.targetPath ++ ".backup." ++ env.ts,
                   backed := true, created := true },
         fsSet fs2 op.targetPath (some (Entry.symlink op.sourcePath)), false) ∧
      fs2 (op.targetPath ++ ".backup." ++ env.ts) = some e0 ∧
      (∀ q, q ∉ ancestorPaths (dirPath op.targetPath) → q ≠ op.targetPath →
        q ≠ op.targetPath ++ ".backup." ++ env.ts → fs2 q = fs q) := by
  set bp := op.targetPath ++ ".backup." ++ env.ts with hbpdef
  set fs1 : FS := fsSet (fsSet fs op.targetPath none) bp (some e0) with hfs1
  have hren : fsRename fs op.targetPath bp = Except.ok fs1 := by
    rw [fsRename, htgt, hbp]
  have hmk1 : ∀ q ∈ ancestorPaths (dirPath op.targetPath),
      fs1 q = none ∨ fs1 q = some Entry.dir := by
    intro q hq
    by_cases hq1 : q = bp
    · exact absurd (hq1 ▸ hq) hbanc
    · by_cases hq2 : q = op.targetPath
      · left
        rw [hfs1, fsSet_other _ _ _ _ hq1, hq2, fsSet_same]
      · rw [hfs1, fsSet_other _ _ _ _ hq1, fsSet_other _ _ _ _ hq2]
        exact hmk q hq hq2 hq1
  obtain ⟨fs2, hmkeq, hframe, hdir⟩ := mkdirAll_ok fs1 (dirPath op.targetPath) hmk1
  have hfs2tgt : fs2 op.targetPath = none := by
    rw [hframe _ htanc, hfs1, fsSet_other _ _ _ _ (fun h => hbne h.symm), fsSet_same]
  refine ⟨fs2, ?_, ?_, ?_⟩
  · rw [LinkOperation.Execute, htgt]
    simp only [← hbpdef, hren, hmkeq]
    rw [fsSymlink, if_neg (by simp [hsym]), hfs2tgt]
  · rw [hframe _ hbanc, hfs1, fsSet_same]
  · intro q hq hq2 hq1
    rw [hframe _ hq, hfs1, fsSet_other _ _ _ _ hq1, fsSet_other _ _ _ _ hq2]

/-- A transaction of a single operation that executes cleanly commits
with no error. -/
theorem txExecuteFS_single_ok (env : Env) (o o1 : Op) (fs fs1 : FS)
    (h : o.Execute env fs = (o1, fs1, false)) :
    txExecuteFS env [o] fs = ⟨fs1, none⟩ := by
  rw [txExecuteFS, txExecuteFSLoop, h]
  rfl

theorem opExecute_link (env : Env) (op op1 : LinkOperation) (fs fs1 : FS) (err : Bool)
    (h : op.Execute env fs = (op1, fs1, err)) :
    Op.Execute env (Op.link op) fs = (Op.link op1, fs1, err) := by
  rw [Op.Execute, h]

/-! ### C5 scenario: linking a non-template file with no source and no
target. -/

def c5Cfg : Config :=
  ⟨[], "/c", "/d", [], ["git"], [".tmpl"], "vim", "bash"⟩

def c5File : ConfigFile :=
  ⟨".gitconfig", "git/gitconfig", "/home/u/.gitconfig", "git", false, [], false, false⟩

def c5FS : FS := fun q =>
  if q = "/d" ∨ q = "/home" ∨ q = "/home/u" then some Entry.dir else none

def c5Env : Env :=
  ⟨"T", fun _ => "", false, false⟩

/-- C5: refuted on the code.  Linking a non-template tracked file whose
source and target are both missing ends with the target being a symlink
to the resolved source, but the source file is never created — the plan
builder only creates the source's parent directory and, for
non-templates, adds a copy operation only when the target already
exists — so the symlink dangles, contradicting the claimed
empty/placeholder file at the source. -/
theorem link_missing_source_not_created :
    ((atomicLinkSingleConfig c5Env c5Cfg c5File c5FS).map
        fun r => r.fs "/d/git/gitconfig") = Except.ok none ∧
    ((atomicLinkSingleConfig c5Env c5Cfg c5File c5FS).map
        fun r => r.fs "/home/u/.gitconfig") =
      Except.ok (some (Entry.symlink "/d/git/gitconfig")) ∧
    ((atomicLinkSingleConfig c5Env c5Cfg c5File c5FS).map
        fun r => r.error) = Except.ok none := by
  refine ⟨?_, ?_, ?_⟩ <;> decide

/-- C5 (amended): linking a non-template tracked file whose source and
target are both missing commits without error and ends with the target
being a symlink to the resolved source path, while the source path
itself still has no entry (the symlink dangles); only the directory
chains are created.  The path-shape hypotheses say that the involved
paths are not among each other's parent directory chains. -/
theorem link_nontemplate_missing_both_dangles (env : Env) (cfg : Config)
    (file : ConfigFile) (fs : FS)
    (h1 : file.Template = false)
    (h2 : env.symlinkFails = false)
    (h3 : fs (filepathJoin cfg.DotfilesDir file.Source) = none)
    (h4 : fs file.Target = none)
    (h5 : ∀ q ∈ ancestorPaths (dirPath (filepathJoin cfg.DotfilesDir file.Source)),
      fs q = none ∨ fs q = some Entry.dir)
    (h6 : ∀ q ∈ ancestorPaths (dirPath file.Target),
      fs q = none ∨ fs q = some Entry.dir)
    (h7 : filepathJoin cfg.DotfilesDir file.Source ∉
      ancestorPaths (dirPath (filepathJoin cfg.DotfilesDir file.Source)))
    (h8 : filepathJoin cfg.DotfilesDir file.Source ∉ ancestorPaths (dirPath file.Target))
    (h9 : file.Target ∉ ancestorPaths (dirPath (filepathJoin cfg.DotfilesDir file.Source)))
    (h10 : file.Target ∉ ancestorPaths (dirPath file.Target))
    (h11 : filepathJoin cfg.DotfilesDir file.Source ≠ file.Target) :
    ∃ r, atomicLinkSingleConfig env cfg file fs = Except.ok r ∧
      r.error = none ∧
      r.fs file.Target =
        some (Entry.symlink (filepathJoin cfg.DotfilesDir file.Source)) ∧
      r.fs (filepathJoin cfg.DotfilesDir file.Source) = none := by
  obtain ⟨fs1, hmk1, hframe1, hdir1⟩ :=
    mkdirAll_ok fs (dirPath (filepathJoin cfg.DotfilesDir file.Source)) h5
  have hfs1sp : fs1 (filepathJoin cfg.DotfilesDir file.Source) = none := by
    rw [hframe1 _ h7, h3]
  have hfs1tgt : fs1 file.Target = none := by
    rw [hframe1 _ h9, h4]
  have hplan : createAtomicLinkOperation cfg file fs =
      Except.ok ([Op.link (NewLinkOperation (filepathJoin cfg.DotfilesDir file.Source)
        file.Target)], fs1) := by
    rw [createAtomicLinkOperation]
    simp only [hmk1, statEntry_of_none hfs1sp, statEntry_of_none hfs1tgt, h1,
      Option.isNone_none, if_true, Bool.false_eq_true, if_false, Option.isSome_none,
      List.nil_append]
  obtain ⟨fs2, hexec, hframe2, hdir2⟩ :=
    linkExecute_fresh env (NewLinkOperation (filepathJoin cfg.DotfilesDir file.Source)
      file.Target) fs1 h2 hfs1tgt
      (by
        intro q hq
        rcases hdir1 q with h' | h'
        · rw [h']
          exact h6 q hq
        · right
          exact h')
      h10
  have htx := txExecuteFS_single_ok env _ _ fs1 _ (opExecute_link env _ _ fs1 _ _ hexec)
  refine ⟨⟨fsSet fs2 file.Target (some (Entry.symlink
    (filepathJoin cfg.DotfilesDir file.Source))), none⟩, ?_, rfl, ?_, ?_⟩
  · rw [atomicLinkSingleConfig, hplan]
    show Except.ok (txExecuteFS env
      [Op.link (NewLinkOperation (filepathJoin cfg.DotfilesDir file.Source) file.Target)] fs1) = _
    rw [htx]
    rfl
  · simp
  · show fsSet fs2 file.Target (some (Entry.symlink (filepathJoin cfg.DotfilesDir file.Source)))
      (filepathJoin cfg.DotfilesDir file.Source) = none
    rw [fsSet_other _ _ _ _ h11, hframe2 _ h8, hfs1sp]

/-- Witness for the amended C5 at the concrete scenario of spec
end-to-end scenario 1. -/
theorem link_nontemplate_missing_both_dangles_witness :
    c5File.Template = false ∧
    (∃ r, atomicLinkSingleConfig c5Env c5Cfg c5File c5FS = Except.ok r ∧
      r.error = none ∧
      r.fs c5File.Target =
        some (Entry.symlink (filepathJoin c5Cfg.DotfilesDir c5File.Source)) ∧
      r.fs (filepathJoin c5Cfg.DotfilesDir c5File.Source) = none) :=
  ⟨rfl, link_nontemplate_missing_both_dangles c5Env c5Cfg c5File c5FS rfl rfl
    (by decide) (by decide) (by decide) (by decide) (by decide) (by decide)
    (by decide) (by decide) (by decide)⟩

/-! ### C6 scenario: linking a file whose target is already a symlink
pointing exactly at the resolved source. -/

def c6Cfg : Config :=
  ⟨[], "/c", "/d", [], ["git"], [".tmpl"], "vim", "bash"⟩

def c6File : ConfigFile :=
  ⟨".gitconfig", "git/gitconfig", "/home/u/.gitconfig", "git", false, [], false, false⟩

def c6FS : FS := fun q =>
  if q = "/d" ∨ q = "/d/git" ∨ q = "/home" ∨ q = "/home/u" then some Entry.dir
  else if q = "/d/git/gitconfig" then some (Entry.file "X")
  else if q = "/home/u/.gitconfig" then some (Entry.symlink "/d/git/gitconfig")
  else none

def c6Env : Env :=
  ⟨"T", fun _ => "", false, false⟩

/-- C6: refuted on the code.  The atomic plan builder
(`createAtomicLinkOperation`) performs no already-linked check: even when
the target is already a symlink pointing exactly at the resolved source
path, it emits a LinkOperation, and executing the transaction mutates the
filesystem — the existing correct symlink is renamed to a timestamped
backup path (an entry that did not exist before) and a fresh symlink is
created. -/
theorem already_linked_not_short_circuited :
    ((createAtomicLinkOperation c6Cfg c6File c6FS).map fun p => p.1) =
      Except.ok [Op.link (NewLinkOperation "/d/git/gitconfig" "/home/u/.gitconfig")] ∧
    c6FS "/home/u/.gitconfig.backup.T" = none ∧
    ((atomicLinkSingleConfig c6Env c6Cfg c6File c6FS).map
        fun r => r.fs "/home/u/.gitconfig.backup.T") =
      Except.ok (some (Entry.symlink "/d/git/gitconfig")) ∧
    ((atomicLinkSingleConfig c6Env c6Cfg c6File c6FS).map fun r => r.error) =
      Except.ok none := by
  refine ⟨?_, ?_, ?_, ?_⟩ <;> decide

/-- C6 (amended): for a tracked file whose target is already a symlink
pointing exactly at the resolved source path (which exists as a regular
file), the plan builder produces no short-circuit: it emits a
LinkOperation anyway, and executing the single-operation transaction
renames the existing symlink to the timestamped backup path and creates
a fresh symlink at the target, so linking such a file does mutate the
filesystem (the backup entry appears) even though the target ends up
unchanged. -/
theorem already_linked_relinks_with_backup (env : Env) (cfg : Config)
    (file : ConfigFile) (fs : FS) (c : String)
    (h2 : env.symlinkFails = false)
    (hsp : fs (filepathJoin cfg.DotfilesDir file.Source) = some (Entry.file c))
    (htgt : fs file.Target =
      some (Entry.symlink (filepathJoin cfg.DotfilesDir file.Source)))
    (hbp : fs (file.Target ++ ".backup." ++ env.ts) = none)
    (h5 : ∀ q ∈ ancestorPaths (dirPath (filepathJoin cfg.DotfilesDir file.Source)),
      fs q = none ∨ fs q = some Entry.dir)
    (h6 : ∀ q ∈ ancestorPaths (dirPath file.Target), q ≠ file.Target →
      q ≠ file.Target ++ ".backup." ++ env.ts →
      (fs q = none ∨ fs q = some Entry.dir))
    (h7 : filepathJoin cfg.DotfilesDir file.Source ∉
      ancestorPaths (dirPath (filepathJoin cfg.DotfilesDir file.Source)))
    (h9 : file.Target ∉ ancestorPaths (dirPath (filepathJoin cfg.DotfilesDir file.Source)))
    (h10 : file.Target ∉ ancestorPaths (dirPath file.Target))
    (hbanc : file.Target ++ ".backup." ++ env.ts ∉ ancestorPaths (dirPath file.Target))
    (hbanc0 : file.Target ++ ".backup." ++ env.ts ∉
      ancestorPaths (dirPath (filepathJoin cfg.DotfilesDir file.Source)))
    (hbne : file.Target ++ ".backup." ++ env.ts ≠ file.Target) :
    ∃ fs1 r, createAtomicLinkOperation cfg file fs =
        Except.ok ([Op.link (NewLinkOperation (filepathJoin cfg.DotfilesDir file.Source)
          file.Target)], fs1) ∧
      atomicLinkSingleConfig env cfg file fs = Except.ok r ∧
      r.error = none ∧
      r.fs file.Target =
        some (Entry.symlink (filepathJoin cfg.DotfilesDir file.Source)) ∧
      r.fs (file.Target ++ ".backup." ++ env.ts) =
        some (Entry.symlink (filepathJoin cfg.DotfilesDir file.Source)) := by
  obtain ⟨fs1, hmk1, hframe1, hdir1⟩ :=
    mkdirAll_ok fs (dirPath (filepathJoin cfg.DotfilesDir file.Source)) h5
  have hfs1sp : fs1 (filepathJoin cfg.DotfilesDir file.Source) = some (Entry.file c) := by
    rw [hframe1 _ h7, hsp]
  have hstat : statEntry fs1 (filepathJoin cfg.DotfilesDir file.Source) =
      some (Entry.file c) :=
    statEntry_of_nonsymlink hfs1sp (by intro t h; exact Entry.noConfusion (Option.some_inj.mp h))
  have hplan : createAtomicLinkOperation cfg file fs =
      Except.ok ([Op.link (NewLinkOperation (filepathJoin cfg.DotfilesDir file.Source)
        file.Target)], fs1) := by
    rw [createAtomicLinkOperation]
    simp only [hmk1, hstat, Option.isNone_some, Bool.false_eq_true, if_false,
      List.nil_append]
  have hfs1tgt : fs1 file.Target =
      some (Entry.symlink (filepathJoin cfg.DotfilesDir file.Source)) := by
    rw [hframe1 _ h9, htgt]
  have hfs1bp : fs1 (file.Target ++ ".backup." ++ env.ts) = none := by
    rw [hframe1 _ hbanc0, hbp]
  obtain ⟨fs2, hexec, hfs2bp, hframe2⟩ :=
    linkExecute_occupied env (NewLinkOperation (filepathJoin cfg.DotfilesDir file.Source)
      file.Target) fs1 (Entry.symlink (filepathJoin cfg.DotfilesDir file.Source))
      h2 hfs1tgt hfs1bp
      (by
        intro q hq hq2 hq1
        rcases hdir1 q with h' | h'
        · rw [h']
          exact h6 q hq hq2 hq1
        · right
          exact h')
      h10 hbanc hbne
  have htx := txExecuteFS_single_ok env _ _ fs1 _ (opExecute_link env _ _ fs1 _ _ hexec)
  refine ⟨fs1, ⟨fsSet fs2 file.Target (some (Entry.symlink
    (filepathJoin cfg.DotfilesDir file.Source))), none⟩, hplan, ?_, rfl, ?_, ?_⟩
  · rw [atomicLinkSingleConfig, hplan]
    show Except.ok (txExecuteFS env
      [Op.link (NewLinkOperation (filepathJoin cfg.DotfilesDir file.Source) file.Target)] fs1) = _
    rw [htx]
    rfl
  · simp
  · show fsSet fs2 file.Target (some (Entry.symlink (filepathJoin cfg.DotfilesDir file.Source)))
      (file.Target ++ ".backup." ++ env.ts) = _
    rw [fsSet_other _ _ _ _ hbne]
    exact hfs2bp

/-- Witness for the amended C6 at the concrete already-linked scenario. -/
theorem already_linked_relinks_with_backup_witness :
    c6FS c6File.Target =
      some (Entry.symlink (filepathJoin c6Cfg.DotfilesDir c6File.Source)) ∧
    (∃ fs1 r, createAtomicLinkOperation c6Cfg c6File c6FS =
        Except.ok ([Op.link (NewLinkOperation (filepathJoin c6Cfg.DotfilesDir c6File.Source)
          c6File.Target)], fs1) ∧
      atomicLinkSingleConfig c6Env c6Cfg c6File c6FS = Except.ok r ∧
      r.error = none ∧
      r.fs c6File.Target =
        some (Entry.symlink (filepathJoin c6Cfg.DotfilesDir c6File.Source)) ∧
      r.fs (c6File.Target ++ ".backup." ++ c6Env.ts) =
        some (Entry.symlink (filepathJoin c6Cfg.DotfilesDir c6File.Source))) :=
  ⟨by decide, already_linked_relinks_with_backup c6Env c6Cfg c6File c6FS "X" rfl
    (by decide) (by decide) (by decide) (by decide) (by decide) (by decide)
    (by decide) (by decide) (by decide) (by decide) (by decide)⟩

/-! ### C4: template lookup order -/

/-- The three candidate paths the claim (spec section 4.3) names for one
extension, in the claimed order. -/
def specCandidates (templatesDir baseName fileName category ext : String) : List String :=
  [filepathJoin templatesDir (baseName ++ ext),
   filepathJoin templatesDir (fileName ++ ext),
   filepathJoin templatesDir (category ++ "_" ++ baseName ++ ext)]

def findTemplateLoopSpec (fs : FS) (templatesDir baseName fileName category : String) :
    List String → String
  | [] => ""
  | ext :: rest =>
    let r := findInCandidates fs (specCandidates templatesDir baseName fileName category ext)
    if r ≠ "" then r
    else findTemplateLoopSpec fs templatesDir baseName fileName category rest

/-- Modelled from the claim's wording, for comparison with the code's
`findTemplateFile`: locate a template by trying exactly the patterns
basename+ext, fullname+ext, category_basename+ext, in that order, across
all configured template extensions, first match wins. -/
def findTemplateFileSpec (fs : FS) (config : Config) (fileName category : String) : String :=
  let templatesDir := filepathJoin config.ConfigDir "templates"
  let baseName := trimLeadingDot fileName
  findTemplateLoopSpec fs templatesDir baseName fileName category config.TemplateExts

def c4Cfg : Config :=
  ⟨[], "/c", "/d", [], ["git"], [".tmpl"], "vim", "bash"⟩

def c4File : ConfigFile :=
  ⟨".gitconfig", "git/gitconfig", "/home/u/.gitconfig", "git", true, [], false, false⟩

def c4FS : FS := fun q =>
  if q = "/c" ∨ q = "/c/templates" ∨ q = "/c/templates/git" ∨ q = "/d" ∨ q = "/d/git" then
    some Entry.dir
  else if q = "/c/templates/git/gitconfig.tmpl" then some (Entry.file "T")
  else none

/-- C4: refuted on the code.  With template extensions [".tmpl"],
category "git" and a template present only at the category-subdirectory
path templates/git/gitconfig.tmpl, none of the three claimed patterns
matches (the claim-side lookup returns the empty string, so the claim
mandates a placeholder CopyOperation) — but the code's `findTemplateFile`
also tries a fourth pattern, category/basename+ext, finds the template,
and `createAtomicLinkOperation` appends a TemplateOperation instead. -/
theorem template_fourth_pattern_counterexample :
    findTemplateFileSpec c4FS c4Cfg ".gitconfig" "git" = "" ∧
    findTemplateFile c4FS c4Cfg ".gitconfig" "git/gitconfig" "git" =
      "/c/templates/git/gitconfig.tmpl" ∧
    ((createAtomicLinkOperation c4Cfg c4File c4FS).map fun p => p.1) =
      Except.ok [Op.tmpl (NewTemplateOperation c4Cfg c4File
          "/c/templates/git/gitconfig.tmpl" "/d/git/gitconfig"),
        Op.link (NewLinkOperation "/d/git/gitconfig" "/home/u/.gitconfig")] := by
  refine ⟨?_, ?_, ?_⟩ <;> decide

theorem slashConcat_ne_empty (s : String) : ("/" ++ s) ≠ "" := by
  intro h
  have hlen : 1 + s.length = 0 := by
    have h' := congrArg String.length h
    rwa [String.length_append, show ("/" : String).length = 1 from rfl,
      show ("" : String).length = 0 from rfl] at h'
  omega

theorem filepathJoin_ne_empty (a b : String) : filepathJoin a b ≠ "" := by
  show "/" ++ interSlash (cleanComponents (a ++ "/" ++ b)) ≠ ""
  exact slashConcat_ne_empty _

theorem templateCandidates_ne_empty (td bn fn cat ext : String) :
    ∀ cand ∈ templateCandidates td bn fn cat ext, cand ≠ "" := by
  intro cand hc
  simp only [templateCandidates, List.mem_cons, List.mem_singleton,
    List.not_mem_nil, or_false] at hc
  rcases hc with h | h | h | h <;> subst h <;> apply filepathJoin_ne_empty

theorem find?_append_of_none {α : Type} {p : α → Bool} {l1 : List α} (l2 : List α)
    (h : l1.find? p = none) : (l1 ++ l2).find? p = l2.find? p := by
  induction l1 with
  | nil => rfl
  | cons x xs ih =>
    by_cases hx : p x
    · rw [List.find?_cons_of_pos _ hx] at h
      exact absurd h (by simp)
    · rw [List.find?_cons_of_neg _ hx] at h
      rw [List.cons_append, List.find?_cons_of_neg _ hx]
      exact ih h

theorem find?_append_of_some {α : Type} {p : α → Bool} {l1 : List α} {a : α} (l2 : List α)
    (h : l1.find? p = some a) : (l1 ++ l2).find? p = some a := by
  induction l1 with
  | nil => exact absurd h (by simp)
  | cons x xs ih =>
    by_cases hx : p x
    · rw [List.find?_cons_of_pos _ hx] at h
      rw [List.cons_append, List.find?_cons_of_pos _ hx]
      exact h
    · rw [List.find?_cons_of_neg _ hx] at h
      rw [List.cons_append, List.find?_cons_of_neg _ hx]
      exact ih h

theorem findInCandidates_eq (fs : FS) (l : List String) :
    findInCandidates fs l = ((l.find? fun c => (statEntry fs c).isSome).getD "") := by
  induction l with
  | nil => rfl
  | cons c rest ih =>
    by_cases hc : (statEntry fs c).isSome
    · rw [findInCandidates, if_pos hc,
        List.find?_cons_of_pos (p := fun s => (statEntry fs s).isSome) _ hc]
      rfl
    · rw [findInCandidates, if_neg hc,
        List.find?_cons_of_neg (p := fun s => (statEntry fs s).isSome) _ (by simpa using hc)]
      exact ih

theorem join_cons_eq {α : Type} (x : List α) (xs : List (List α)) :
    (x :: xs).join = x ++ xs.join := rfl

theorem findTemplateLoop_eq (fs : FS) (td bn fn cat : String) (exts : List String) :
    findTemplateLoop fs td bn fn cat exts =
      (((exts.map (templateCandidates td bn fn cat)).join.find?
        fun cand => (statEntry fs cand).isSome).getD "") := by
  induction exts with
  | nil => rfl
  | cons ext rest ih =>
    rw [findTemplateLoop, findInCandidates_eq, List.map_cons, join_cons_eq]
    cases hfind : (templateCandidates td bn fn cat ext).find?
        (fun cand => (statEntry fs cand).isSome) with
    | none =>
      rw [find?_append_of_none _ hfind]
      simpa using ih
    | some c =>
      have hc : c ≠ "" :=
        templateCandidates_ne_empty td bn fn cat ext c (List.mem_of_find?_eq_some hfind)
      rw [find?_append_of_some _ hfind]
      simp [hc]

/-- C4 (amended): the code's template lookup tries exactly the four
patterns basename+ext, fullname+ext, category_basename+ext and
category/basename+ext, in that order, for each configured template
extension in order, and the first candidate that stats successfully wins
(empty string when none does); and when a tracked template file's source
is missing, the plan builder appends a TemplateOperation for the found
template, or a CopyOperation with empty source (placeholder generation)
when the lookup found nothing, followed by the LinkOperation. -/
theorem template_lookup_first_match (fs fs1 : FS) (cfg : Config) (file : ConfigFile)
    (fileName source category : String) :
    (findTemplateFile fs cfg fileName source category =
      (((cfg.TemplateExts.map (templateCandidates
          (filepathJoin cfg.ConfigDir "templates") (trimLeadingDot fileName)
          fileName category)).join.find?
        fun cand => (statEntry fs cand).isSome).getD "")) ∧
    (mkdirAll fs (dirPath (filepathJoin cfg.DotfilesDir file.Source)) = Except.ok fs1 →
     file.Template = true →
     statEntry fs1 (filepathJoin cfg.DotfilesDir file.Source) = none →
     createAtomicLinkOperation cfg file fs = Except.ok
       ((if findTemplateFile fs1 cfg file.Name file.Source file.Category ≠ "" then
           [Op.tmpl (NewTemplateOperation cfg file
             (findTemplateFile fs1 cfg file.Name file.Source file.Category)
             (filepathJoin cfg.DotfilesDir file.Source))]
         else
           [Op.copy (NewCopyOperation fs1 "" (filepathJoin cfg.DotfilesDir file.Source))])
         ++ [Op.link (NewLinkOperation (filepathJoin cfg.DotfilesDir file.Source)
           file.Target)], fs1)) := by
  constructor
  · rw [findTemplateFile]
    exact findTemplateLoop_eq fs _ _ _ _ cfg.TemplateExts
  · intro hmk htpl hsrc
    rw [createAtomicLinkOperation]
    simp only [hmk, hsrc, htpl, Option.isNone_none, if_true]

/-- Witness for the amended C4 at the category-subdirectory scenario. -/
theorem template_lookup_first_match_witness :
    (findTemplateFile c4FS c4Cfg ".gitconfig" "git/gitconfig" "git" =
      (((c4Cfg.TemplateExts.map (templateCandidates
          (filepathJoin c4Cfg.ConfigDir "templates") (trimLeadingDot ".gitconfig")
          ".gitconfig" "git")).join.find?
        fun cand => (statEntry c4FS cand).isSome).getD "")) ∧
    createAtomicLinkOperation c4Cfg c4File c4FS = Except.ok
      ((if findTemplateFile c4FS c4Cfg c4File.Name c4File.Source c4File.Category ≠ "" then
          [Op.tmpl (NewTemplateOperation c4Cfg c4File
            (findTemplateFile c4FS c4Cfg c4File.Name c4File.Source c4File.Category)
            (filepathJoin c4Cfg.DotfilesDir c4File.Source))]
        else
          [Op.copy (NewCopyOperation c4FS "" (filepathJoin c4Cfg.DotfilesDir c4File.Source))])
        ++ [Op.link (NewLinkOperation (filepathJoin c4Cfg.DotfilesDir c4File.Source)
          c4File.Target)], c4FS) :=
  ⟨(template_lookup_first_match c4FS c4FS c4Cfg c4File ".gitconfig" "git/gitconfig" "git").1,
   (template_lookup_first_match c4FS c4FS c4Cfg c4File ".gitconfig" "git/gitconfig" "git").2
     rfl rfl (by decide)⟩

/-! ### Manifest mutation and validation (config.go, src/unnamed/part_005) -/

/-- A `ValidationError` (errors.go lines 29-41), as built by
`NewValidationError(field, value, message, file)`. -/
structure VErr where
  Field : String
  Value : String
  Message : String
  FileCtx : String
deriving DecidableEq

/-- Embeds `updateSingleFileStatus` (config.go lines 354-391): reset both
flags, then Lstat the target; a missing target leaves both flags false, a
symlink is compared against the expected source path, anything else is a
conflict. -/
def updateSingleFileStatus (cfg : Config) (fs : FS) (f : ConfigFile) : ConfigFile :=
  let f0 := { f with IsLinked := false, HasConflict := false }
  match fs f.Target with
  | none => f0
  | some (Entry.symlink t) =>
    if t = filepathJoin cfg.DotfilesDir f.Source then { f0 with IsLinked := true }
    else { f0 with HasConflict := true }
  | some _ => { f0 with HasConflict := true }

/-- The loop of `removeDuplicateFiles` (config.go lines 338-351), with
the `seen` set of target paths made explicit. -/
def removeDupLoop (seen : List String) : List ConfigFile → List ConfigFile
  | [] => []
  | f :: rest =>
    if f.Target ∈ seen then removeDupLoop seen rest
    else f :: removeDupLoop (f.Target :: seen) rest

/-- Embeds `removeDuplicateFiles` (config.go lines 338-351): drop every
entry whose target path was already seen. -/
def removeDuplicateFiles (files : List ConfigFile) : List ConfigFile :=
  removeDupLoop [] files

/-- Embeds `updateFileStatuses` (config.go lines 322-335): deduplicate by
target path, then recompute each remaining file's status flags. -/
def updateFileStatuses (fs : FS) (cfg : Config) : Config :=
  let files := removeDuplicateFiles cfg.Files
  { cfg with Files := files.map fun f => updateSingleFileStatus cfg fs f }

/-- The duplicate-checking loop of `Config.AddConfigFile`
(config.go lines 543-553): per existing file, the target check comes
first, then the name-and-category check. -/
def addDupCheck : List ConfigFile → ConfigFile → Option VErr
  | [], _ => none
  | g :: rest, f =>
    if g.Target = f.Target then
      some ⟨"target", f.Target, "target already managed by " ++ g.Name, ""⟩
    else if g.Name = f.Name ∧ g.Category = f.Category then
      some ⟨"name", f.Name, "file with same name already exists in category " ++ f.Category, ""⟩
    else addDupCheck rest f

/-- Embeds `Config.AddConfigFile` (config.go lines 532-577).  The Go
method mutates the receiver only on the success path (append plus status
refresh of the appended entry); every validation failure returns before
any mutation, which the embedding renders by returning the unchanged
config next to the error. -/
def AddConfigFile (fs : FS) (c : Config) (f : ConfigFile) : Config × Option VErr :=
  if f.Name = "" then (c, some ⟨"name", "", "file name cannot be empty", ""⟩)
  else if f.Target = "" then (c, some ⟨"target", "", "target path cannot be empty", ""⟩)
  else
    match addDupCheck c.Files f with
    | some e => (c, some e)
    | none =>
      if f.Category ≠ "" ∧ f.Category ∉ c.Categories then
        (c, some ⟨"category", f.Category, "category not defined in configuration", ""⟩)
      else
        ({ c with Files := c.Files ++ [updateSingleFileStatus c fs f] }, none)

/-- Embeds `filepath.IsAbs`. -/
def isAbsPath (p : String) : Bool :=
  strStartsWith p "/"

def fileContext (i : Nat) : String :=
  "files[" ++ toString i ++ "]"

/-- One iteration of the loop of `Config.validateFiles`
(src/unnamed/part_005 lines 69-118): the required-field checks, the
duplicate-target check against the targets seen so far (recording the
owning file's name), the absolute-target check, the category check, and
the source-containment check via `strings.HasPrefix` on the joined
path. -/
def validateOneFile (c : Config) (i : Nat) (f : ConfigFile)
    (seen : List (String × String)) : List VErr × List (String × String) :=
  let ctx := fileContext i
  let e1 := if f.Name = "" then [(⟨"name", "", "file name cannot be empty", ctx⟩ : VErr)] else []
  let e2 := if f.Source = "" then [(⟨"source", "", "source path cannot be empty", ctx⟩ : VErr)] else []
  let r3 : List VErr × List (String × String) :=
    if f.Target = "" then ([⟨"target", "", "target path cannot be empty", ctx⟩], seen)
    else
      let dupErr : List VErr :=
        match seen.find? fun p => p.1 = f.Target with
        | some p => [⟨"target", f.Target, "duplicate target (also used by " ++ p.2 ++ ")", ctx⟩]
        | none => []
      let absErr : List VErr :=
        if isAbsPath f.Target then [] else [⟨"target", f.Target, "must be absolute path", ctx⟩]
      (dupErr ++ absErr, (f.Target, f.Name) :: seen)
  let e4 := if f.Category ≠ "" ∧ f.Category ∉ c.Categories then
      [(⟨"category", f.Category, "category not defined in config", ctx⟩ : VErr)]
    else []
  let e5 := if f.Source ≠ "" then
      (if strStartsWith (filepathJoin c.DotfilesDir f.Source) c.DotfilesDir then []
       else [(⟨"source", f.Source, "source path escapes dotfiles directory", ctx⟩ : VErr)])
    else []
  (e1 ++ e2 ++ r3.1 ++ e4 ++ e5, r3.2)

def validateFilesLoop (c : Config) : List ConfigFile → Nat → List (String × String) → List VErr
  | [], _, _ => []
  | f :: rest, i, seen =>
    let r := validateOneFile c i f seen
    r.1 ++ validateFilesLoop c rest (i + 1) r.2

/-- Embeds `Config.validateFiles` (src/unnamed/part_005 lines 63-121). -/
def validateFiles (c : Config) : List VErr :=
  validateFilesLoop c c.Files 0 []

/-- Modelled from the spec: the source is inside the dotfiles root when
the root's path components are a prefix of the components of the cleaned
joined path (`sourceRelPath, when joined with the dotfiles root, must
resolve to a path inside the dotfiles root`). -/
def sourceInsideRoot (root src : String) : Prop :=
  (cleanComponents root) <+: (cleanComponents (filepathJoin root src))

instance (root src : String) : Decidable (sourceInsideRoot root src) :=
  inferInstanceAs (Decidable
    ((cleanComponents root) <+: (cleanComponents (filepathJoin root src))))

theorem updateSingleFileStatus_target (cfg : Config) (fs : FS) (f : ConfigFile) :
    (updateSingleFileStatus cfg fs f).Target = f.Target := by
  unfold updateSingleFileStatus
  cases fs f.Target with
  | none => rfl
  | some e =>
    cases e with
    | file c => rfl
    | symlink t =>
      dsimp only
      split <;> rfl
    | dir => rfl

theorem removeDupLoop_filter (seen : List String) (files : List ConfigFile) (t : String) :
    (removeDupLoop seen files).filter (fun f => f.Target = t) =
      if t ∈ seen then [] else (files.filter fun f => f.Target = t).take 1 := by
  induction files generalizing seen with
  | nil => simp [removeDupLoop]
  | cons f rest ih =>
    by_cases hf : f.Target ∈ seen
    · rw [removeDupLoop, if_pos hf, ih]
      by_cases ht : t ∈ seen
      · simp [ht]
      · have hft : ¬(f.Target = t) := fun h => ht (h ▸ hf)
        simp [ht, hft]
    · rw [removeDupLoop, if_neg hf]
      by_cases hft : f.Target = t
      · subst hft
        simp [List.filter_cons, ih, hf]
      · have ht' : ¬(t = f.Target) := fun h => hft h.symm
        simp [List.filter_cons, ih, hft, ht']

theorem removeDupLoop_nodup (seen : List String) (files : List ConfigFile) :
    ((removeDupLoop seen files).map fun f => f.Target).Nodup ∧
    ∀ f ∈ removeDupLoop seen files, f.Target ∉ seen := by
  induction files generalizing seen with
  | nil => simp [removeDupLoop]
  | cons f rest ih =>
    by_cases hf : f.Target ∈ seen
    · rw [removeDupLoop, if_pos hf]
      exact ih seen
    · rw [removeDupLoop, if_neg hf]
      obtain ⟨hnd, hnot⟩ := ih (f.Target :: seen)
      refine ⟨?_, ?_⟩
      · rw [List.map_cons, List.nodup_cons]
        refine ⟨?_, hnd⟩
        intro hmem
        rw [List.mem_map] at hmem
        obtain ⟨g, hg, hgt⟩ := hmem
        exact hnot g hg (hgt ▸ List.mem_cons_self _ _)
      · intro g hg
        rcases List.mem_cons.mp hg with h | h
        · rw [h]
          exact hf
        · intro hmem
          exact hnot g h (List.mem_cons_of_mem _ hmem)

theorem filter_map_eq {α β : Type} (g : α → β) (p : β → Bool) (l : List α) :
    (l.map g).filter p = (l.filter fun a => p (g a)).map g := by
  induction l with
  | nil => rfl
  | cons a l ih =>
    by_cases h : p (g a) <;> simp [List.filter_cons, h, ih]

/-- C10: `updateFileStatuses` first deduplicates the file list by target
path, keeping only the first entry for each target, then recomputes the
status flags of the surviving entries (which does not change targets);
consequently after every call no two entries share a target path. -/
theorem update_file_statuses_dedup (fs : FS) (cfg : Config) :
    (((updateFileStatuses fs cfg).Files.map fun f => f.Target).Nodup) ∧
    (∀ t, (updateFileStatuses fs cfg).Files.filter (fun f => f.Target = t) =
      ((cfg.Files.filter fun f => f.Target = t).take 1).map
        fun f => updateSingleFileStatus cfg fs f) := by
  constructor
  · rw [updateFileStatuses]
    dsimp only
    rw [List.map_map]
    have hcomp : ((fun f : ConfigFile => f.Target) ∘
        fun f => updateSingleFileStatus cfg fs f) = fun f : ConfigFile => f.Target := by
      funext g
      exact updateSingleFileStatus_target cfg fs g
    rw [hcomp]
    exact (removeDupLoop_nodup [] cfg.Files).1
  · intro t
    rw [updateFileStatuses]
    dsimp only
    rw [filter_map_eq]
    have hpred : (fun f : ConfigFile =>
        decide ((updateSingleFileStatus cfg fs f).Target = t)) =
        fun f : ConfigFile => decide (f.Target = t) := by
      funext g
      rw [updateSingleFileStatus_target]
    rw [hpred, removeDuplicateFiles, removeDupLoop_filter]
    simp

theorem addDupCheck_isSome_of_target (files : List ConfigFile) (f : ConfigFile)
    (h : ∃ g ∈ files, g.Target = f.Target) : (addDupCheck files f).isSome := by
  induction files with
  | nil => simp at h
  | cons g rest ih =>
    rw [addDupCheck]
    by_cases h1 : g.Target = f.Target
    · simp [h1]
    · rw [if_neg h1]
      by_cases h2 : g.Name = f.Name ∧ g.Category = f.Category
      · simp [h2]
      · rw [if_neg h2]
        apply ih
        rcases h with ⟨g', hg', ht⟩
        rcases List.mem_cons.mp hg' with h' | hm
        · exact absurd (h' ▸ ht) h1
        · exact ⟨g', hm, ht⟩

theorem addDupCheck_none_no_target (files : List ConfigFile) (f : ConfigFile)
    (h : addDupCheck files f = none) : ∀ g ∈ files, g.Target ≠ f.Target := by
  induction files with
  | nil => simp
  | cons g rest ih =>
    rw [addDupCheck] at h
    by_cases h1 : g.Target = f.Target
    · rw [if_pos h1] at h
      exact absurd h (by simp)
    · rw [if_neg h1] at h
      by_cases h2 : g.Name = f.Name ∧ g.Category = f.Category
      · rw [if_pos h2] at h
        exact absurd h (by simp)
      · rw [if_neg h2] at h
        intro g' hg'
        rcases List.mem_cons.mp hg' with h' | hm
        · rw [h']
          exact h1
        · exact ih h g' hm

/-- C8: adding a `TrackedFile` whose target equals the target of an
existing manifest entry is rejected with a validation error and leaves
the whole manifest unchanged; and when an add succeeds on a manifest
with pairwise-distinct targets, the targets are still pairwise distinct
afterwards. -/
theorem add_config_file_target_unique (fs : FS) (c : Config) (f : ConfigFile) :
    ((∃ g ∈ c.Files, g.Target = f.Target) →
      (AddConfigFile fs c f).2.isSome ∧ (AddConfigFile fs c f).1 = c) ∧
    ((c.Files.map fun g => g.Target).Nodup → (AddConfigFile fs c f).2 = none →
      ((AddConfigFile fs c f).1.Files.map fun g => g.Target).Nodup) := by
  constructor
  · intro hdup
    rw [AddConfigFile]
    by_cases h1 : f.Name = ""
    · simp [h1]
    · rw [if_neg h1]
      by_cases h2 : f.Target = ""
      · simp [h2]
      · rw [if_neg h2]
        have hsome := addDupCheck_isSome_of_target c.Files f hdup
        cases hck : addDupCheck c.Files f with
        | none =>
          rw [hck] at hsome
          simp at hsome
        | some e => simp
  · intro hnd hnone
    rw [AddConfigFile] at hnone ⊢
    by_cases h1 : f.Name = ""
    · rw [if_pos h1] at hnone
      simp at hnone
    · rw [if_neg h1] at hnone ⊢
      by_cases h2 : f.Target = ""
      · rw [if_pos h2] at hnone
        simp at hnone
      · rw [if_neg h2] at hnone ⊢
        cases hck : addDupCheck c.Files f with
        | some e =>
          rw [hck] at hnone
          simp at hnone
        | none =>
          rw [hck] at hnone
          dsimp only at hnone ⊢
          by_cases h3 : f.Category ≠ "" ∧ f.Category ∉ c.Categories
          · rw [if_pos h3] at hnone
            simp at hnone
          · rw [if_neg h3] at hnone ⊢
            dsimp only
            rw [List.map_append, List.nodup_append]
            refine ⟨hnd, by simp, ?_⟩
            intro t ht hmem
            simp only [List.map_cons, List.map_nil, List.mem_singleton,
              updateSingleFileStatus_target] at hmem
            rw [List.mem_map] at ht
            obtain ⟨g, hg, hgt⟩ := ht
            exact addDupCheck_none_no_target c.Files f hck g hg (by rw [hgt, hmem])

def c8FS : FS := fun _ => none

def c8Cfg : Config :=
  ⟨[⟨"a", "s", "/t", "", false, [], false, false⟩], "/c", "/d", [], ["misc"],
   [".tmpl"], "vim", "bash"⟩

def c8Dup : ConfigFile :=
  ⟨"b", "s2", "/t", "", false, [], false, false⟩

def c8Ok : ConfigFile :=
  ⟨"b", "s2", "/t2", "", false, [], false, false⟩

/-- Witness for C8: a duplicate-target add is rejected unchanged, and a
fresh-target add preserves target uniqueness. -/
theorem add_config_file_target_unique_witness :
    (∃ g ∈ c8Cfg.Files, g.Target = c8Dup.Target) ∧
    ((AddConfigFile c8FS c8Cfg c8Dup).2.isSome ∧
      (AddConfigFile c8FS c8Cfg c8Dup).1 = c8Cfg) ∧
    ((AddConfigFile c8FS c8Cfg c8Ok).1.Files.map fun g => g.Target).Nodup :=
  ⟨by decide, (add_config_file_target_unique c8FS c8Cfg c8Dup).1 (by decide),
   (add_config_file_target_unique c8FS c8Cfg c8Ok).2 (by decide) (by decide)⟩

/-! ### C9 scenario: source containment. -/

def c9Cfg : Config :=
  ⟨[⟨"x", "../dotfiles2/x", "/t/x", "", false, [], false, false⟩], "/c",
   "/home/u/dotfiles", [], ["misc"], [".tmpl"], "vim", "bash"⟩

def c9Base : Config :=
  ⟨[], "/c", "/home/u/dotfiles", [], ["misc"], [".tmpl"], "vim", "bash"⟩

def c9Evil : ConfigFile :=
  ⟨"evil", "../evil", "/t/evil", "", false, [], false, false⟩

/-- C9: refuted on the code.  The tracked file with source
`../dotfiles2/x` under root `/home/u/dotfiles` resolves to
`/home/u/dotfiles2/x`, which is outside the root, yet `validateFiles`
reports no error: its containment check is `strings.HasPrefix` on the
joined path string, and `/home/u/dotfiles` is a string prefix of
`/home/u/dotfiles2/x` even though it is not a path-component prefix.
Moreover `Config.AddConfigFile` performs no containment check at all:
adding a file with source `../evil` (resolving outside the root)
succeeds with no error. -/
theorem source_containment_not_enforced :
    (¬ sourceInsideRoot "/home/u/dotfiles" "../dotfiles2/x") ∧
    validateFiles c9Cfg = [] ∧
    (¬ sourceInsideRoot "/home/u/dotfiles" "../evil") ∧
    (AddConfigFile (fun _ => none) c9Base c9Evil).2 = none := by
  refine ⟨?_, ?_, ?_, ?_⟩ <;> decide

end ConfigManager
